import Mathlib

/-!
Verification of the CSR8645 AT-command protocol driver
(`src/bin/csr8645/csr8645.rs`).

Strings on the wire are modelled as lists of byte values (`List Nat`,
each < 256); decoded Rust `String`s are modelled as lists of Unicode
code points (`List Nat`).  Rust's `String::from_utf8` /
`core::str::from_utf8` are modelled by `utf8Decode`, a strict UTF-8
decoder (rejecting overlong forms, surrogates and out-of-range code
points, exactly as Rust does).  The driver methods are modelled by
`runOp`, a pure function of the command, the driver state and a
transport oracle that supplies the outcome of the single `uart.write`
and `uart.read` a method may perform.
-/

instance {ε α : Type} [DecidableEq ε] [DecidableEq α] : DecidableEq (Except ε α) :=
  fun x y =>
    match x, y with
    | .ok a, .ok b =>
      if h : a = b then isTrue (by rw [h])
      else isFalse fun he => h (Except.ok.inj he)
    | .error a, .error b =>
      if h : a = b then isTrue (by rw [h])
      else isFalse fun he => h (Except.error.inj he)
    | .ok _, .error _ => isFalse Except.noConfusion
    | .error _, .ok _ => isFalse Except.noConfusion

/-- Code points of a (ASCII) string literal, used to transcribe the
byte-string and format-string literals of the source. -/
def strCp (s : String) : List Nat := s.data.map Char.toNat

/-- Is `b` a UTF-8 continuation byte (`0x80..0xBF`)? -/
def isCont (b : Nat) : Bool := 0x80 ≤ b && b < 0xC0

/-- Decode one UTF-8 sequence whose lead byte is `b` and whose
following bytes start `rest`: yields the decoded code point and the
unconsumed remainder, or `none` on malformed input (stray continuation
byte, truncated sequence, overlong form, surrogate, or code point
above `0x10FFFF`) — exactly the inputs Rust rejects. -/
def utf8Step (b : Nat) (rest : List Nat) : Option (Nat × List Nat) :=
  if b < 0x80 then
    some (b, rest)
  else if b < 0xC0 then
    none
  else if b < 0xE0 then
    match rest with
    | b1 :: rest1 =>
      if isCont b1 then
        if 0x80 ≤ (b % 0x20) * 0x40 + b1 % 0x40 then
          some ((b % 0x20) * 0x40 + b1 % 0x40, rest1)
        else none
      else none
    | [] => none
  else if b < 0xF0 then
    match rest with
    | b1 :: b2 :: rest2 =>
      if isCont b1 && isCont b2 then
        if 0x800 ≤ (b % 0x10) * 0x1000 + (b1 % 0x40) * 0x40 + b2 % 0x40 ∧
            ¬(0xD800 ≤ (b % 0x10) * 0x1000 + (b1 % 0x40) * 0x40 + b2 % 0x40 ∧
              (b % 0x10) * 0x1000 + (b1 % 0x40) * 0x40 + b2 % 0x40 < 0xE000) then
          some ((b % 0x10) * 0x1000 + (b1 % 0x40) * 0x40 + b2 % 0x40, rest2)
        else none
      else none
    | _ => none
  else if b < 0xF8 then
    match rest with
    | b1 :: b2 :: b3 :: rest3 =>
      if isCont b1 && isCont b2 && isCont b3 then
        if 0x10000 ≤ (b % 0x8) * 0x40000 + (b1 % 0x40) * 0x1000 +
              (b2 % 0x40) * 0x40 + b3 % 0x40 ∧
            (b % 0x8) * 0x40000 + (b1 % 0x40) * 0x1000 +
              (b2 % 0x40) * 0x40 + b3 % 0x40 < 0x110000 then
          some ((b % 0x8) * 0x40000 + (b1 % 0x40) * 0x1000 +
                (b2 % 0x40) * 0x40 + b3 % 0x40, rest3)
        else none
      else none
    | _ => none
  else none

/-- Decode loop for `utf8Decode`; the fuel argument only forces
structural recursion and is always sufficient at the input's length
(each step consumes at least one byte). -/
def utf8DecodeGo : Nat → List Nat → Option (List Nat)
  | _, [] => some []
  | 0, _ :: _ => none
  | fuel + 1, b :: rest =>
    match utf8Step b rest with
    | none => none
    | some (cp, rest') => (utf8DecodeGo fuel rest').map (cp :: ·)

/-- Strict UTF-8 decoder: models Rust's `String::from_utf8` /
`core::str::from_utf8` on a byte list, producing the list of decoded
Unicode code points, or `none` on any malformed input. -/
def utf8Decode (l : List Nat) : Option (List Nat) := utf8DecodeGo l.length l

/-- UTF-8 byte length of one code point. -/
def cpLen (cp : Nat) : Nat :=
  if cp < 0x80 then 1 else if cp < 0x800 then 2 else if cp < 0x10000 then 3 else 4

/-- UTF-8 byte length of a list of code points (the `String::len` of the
decoded Rust string). -/
def utf8Len (s : List Nat) : Nat := (s.map cpLen).sum

example : utf8Decode (strCp "AT") = some [65, 84] := by decide
example : utf8Decode [0xFF] = none := by decide
example : utf8Decode [0xC3, 0xA9] = some [0xE9] := by decide
example : utf8Decode [0xC0, 0x80] = none := by decide
example : utf8Decode [0xED, 0xA0, 0x80] = none := by decide
example : utf8Decode [0xF0, 0x9F, 0x98, 0x80] = some [0x1F600] := by decide
example : utf8Decode (0xFF :: List.replicate 63 0) = none := by decide

/-- Models Rust's `char::is_whitespace` (the Unicode `White_Space`
property), used by `str::trim`.  Note that `NUL` (0) is *not*
whitespace. -/
def isRustWhitespace (cp : Nat) : Bool :=
  cp ∈ [0x09, 0x0A, 0x0B, 0x0C, 0x0D, 0x20, 0x85, 0xA0, 0x1680,
        0x2000, 0x2001, 0x2002, 0x2003, 0x2004, 0x2005, 0x2006, 0x2007,
        0x2008, 0x2009, 0x200A, 0x2028, 0x2029, 0x202F, 0x205F, 0x3000]

/-- Models Rust's `str::trim`: drop leading and trailing whitespace
code points. -/
def rustTrim (s : List Nat) : List Nat :=
  ((s.dropWhile isRustWhitespace).reverse.dropWhile isRustWhitespace).reverse

/-- Digit-accumulation loop of `u32::from_str_radix(s, 10)`: every code
point must be an ASCII decimal digit, and the accumulated value must
stay below `2^32` (Rust reports overflow as a parse error). -/
def parseU32Core : List Nat → Nat → Option Nat
  | [], acc => some acc
  | c :: rest, acc =>
    if 0x30 ≤ c && c ≤ 0x39 then
      let acc' := acc * 10 + (c - 0x30)
      if acc' < 4294967296 then parseU32Core rest acc' else none
    else none

/-- Models `u32::from_str_radix(s, 10)`: an optional leading `+`, then
one or more decimal digits, no overflow; `none` models every `Err`
case (empty input, invalid digit, overflow). -/
def parseU32 (s : List Nat) : Option Nat :=
  let digits := match s with
    | 0x2B :: rest => rest
    | other => other
  if digits.isEmpty then none else parseU32Core digits 0

/-- Substring test, models Rust's `str::contains` with a string
pattern. -/
def containsSub (hay pat : List Nat) : Bool :=
  if pat.isPrefixOf hay then true
  else
    match hay with
    | [] => false
    | _ :: t => containsSub t pat

/-- Models Rust's `str::split(sep)` followed by collecting each segment:
splits at every occurrence of the separator, keeping empty segments
(including a trailing empty segment after a final separator). -/
def splitChar (sep : Nat) : List Nat → List (List Nat)
  | [] => [[]]
  | c :: rest =>
    if c = sep then [] :: splitChar sep rest
    else
      match splitChar sep rest with
      | [] => [[c]]
      | seg :: segs => (c :: seg) :: segs

example : splitChar 0x0A (strCp "AA:BB\nCC:DD\n") =
    [strCp "AA:BB", strCp "CC:DD", []] := by decide
example : splitChar 0x0A (strCp "abc") = [strCp "abc"] := by decide
example : parseU32 (strCp "9600") = some 9600 := by decide
example : parseU32 (strCp "") = none := by decide
example : parseU32 (strCp "4294967296") = none := by decide
example : parseU32 (strCp "+42") = some 42 := by decide
example : rustTrim (strCp "  9600\r\n") = strCp "9600" := by decide
example : rustTrim (strCp "9600\u0000") = strCp "9600\u0000" := by decide
example : containsSub (strCp "xxOK+CONyy") (strCp "OK+CON") = true := by decide
example : containsSub (strCp "OK+CO") (strCp "OK+CON") = false := by decide

/-- Digit loop for `natDigits`; the fuel argument only forces
structural recursion and is always sufficient at `n + 1`. -/
def natDigitsGo : Nat → Nat → List Nat → List Nat
  | 0, _, acc => acc
  | fuel + 1, n, acc =>
    if n < 10 then (0x30 + n) :: acc
    else natDigitsGo fuel (n / 10) ((0x30 + n % 10) :: acc)

/-- Decimal rendering of a natural number, models `format!("{}", n)`
for a `u32` value. -/
def natDigits (n : Nat) : List Nat := natDigitsGo (n + 1) n []

example : natDigits 9600 = strCp "9600" := by decide
example : natDigits 0 = strCp "0" := by decide

/-- The error type of the driver (`Csr8645Error` in the source).
`uartError` wraps the transport fault reported by `uart.write` /
`uart.read` (modelled as a numeric fault code); `invalidResponse` is
the reply-parse failure. -/
inductive Csr8645Error where
  | uartError (code : Nat)
  | invalidResponse
deriving DecidableEq, Repr

/-- The closed set of driver operations: one variant per public method
of `Csr8645`, carrying the method's parameters.  String parameters are
lists of code points, byte parameters lists of bytes; `receiveData`,
`receiveAudio` carry the caller-supplied buffer length. -/
inductive Command where
  | setName (name : List Nat)
  | getName
  | setPin (pin : List Nat)
  | getPin
  | setBaudrate (rate : Nat)
  | getBaudrate
  | connect (address : List Nat)
  | disconnect
  | checkConnectionStatus
  | scan
  | sendData (data : List Nat)
  | receiveData (len : Nat)
  | playAudio (data : List Nat)
  | receiveAudio (len : Nat)
  | getStatus
  | setNotifications (enable : Bool)
deriving DecidableEq, Repr

/-- The typed result of an operation: what each method's `Ok` value
carries. -/
inductive Response where
  | unit
  | bool (b : Bool)
  | u32 (n : Nat)
  | text (s : List Nat)
  | addressList (xs : List (List Nat))
  | bytes (bs : List Nat)
deriving DecidableEq, Repr

/-- The observable outcome of one method call: a typed success value,
a returned error, or a panic (`.unwrap()` on a failing conversion). -/
inductive Outcome where
  | ok (r : Response)
  | err (e : Csr8645Error)
  | panicked
deriving DecidableEq, Repr

/-- One transport interaction: a write of a frame, or a read into a
buffer of the given length. -/
inductive Event where
  | write (frame : List Nat)
  | read (len : Nat)
deriving DecidableEq, Repr

/-- Outcomes the transport supplies for the (at most one) write and
(at most one) read a method performs: models the behaviour of
`uart.write` / `uart.read` during the call.  A successful read
delivers `data` into the front of the zero-initialised buffer. -/
structure Oracle where
  writeRes : Except Nat Unit
  readRes : Except Nat (List Nat)

/-- The driver struct (`Csr8645`): its only field is the owned UART
handle, modelled by an opaque identifier.  No method mutates it. -/
structure Csr8645State where
  uartId : Nat
deriving DecidableEq, Repr

/-- Contents of an `n`-byte zero-initialised stack buffer after a read
that delivered `data`: the delivered bytes (truncated to the buffer
size) followed by the untouched zero bytes. -/
def fillBuf (n : Nat) (data : List Nat) : List Nat :=
  data.take n ++ List.replicate (n - data.length) 0

/-- Frame built by `set_name`: `format!("AT+NAME={}\r\n", name)`. -/
def setNameFrame (name : List Nat) : List Nat :=
  strCp "AT+NAME=" ++ name ++ strCp "\r\n"

/-- Frame built by `set_pin`: `format!("AT+PIN={}\r\n", pin)`. -/
def setPinFrame (pin : List Nat) : List Nat :=
  strCp "AT+PIN=" ++ pin ++ strCp "\r\n"

/-- Frame built by `set_baudrate`: `format!("AT+BAUD={}\r\n", rate)`. -/
def setBaudrateFrame (rate : Nat) : List Nat :=
  strCp "AT+BAUD=" ++ natDigits rate ++ strCp "\r\n"

/-- Frame built by `connect`: `format!("AT+CON{}\r\n", address)`. -/
def connectFrame (address : List Nat) : List Nat :=
  strCp "AT+CON" ++ address ++ strCp "\r\n"

/-- The bytes each command variant writes to the transport, or `none`
for the two receive-only methods, which write nothing.  Transcribed
from the `command` expression of each method of `Csr8645`. -/
def frameOf : Command → Option (List Nat)
  | .setName name => some (setNameFrame name)
  | .getName => some (strCp "AT+NAME?\r\n")
  | .setPin pin => some (setPinFrame pin)
  | .getPin => some (strCp "AT+PIN?\r\n")
  | .setBaudrate rate => some (setBaudrateFrame rate)
  | .getBaudrate => some (strCp "AT+BAUD?\r\n")
  | .connect address => some (connectFrame address)
  | .disconnect => some (strCp "AT")
  | .checkConnectionStatus => some (strCp "AT+CON?\r\n")
  | .scan => some (strCp "AT+DISC?\r\n")
  | .sendData data => some data
  | .receiveData _ => none
  | .playAudio data => some data
  | .receiveAudio _ => none
  | .getStatus => some (strCp "AT+STATE?\r\n")
  | .setNotifications enable =>
      some (if enable then strCp "AT+NOTI1\r\n" else strCp "AT+NOTI0\r\n")

/-- Commands whose frame is a textual AT line (everything except the
binary-payload and receive-only passthrough operations). -/
def textCommand : Command → Bool
  | .sendData _ => false
  | .receiveData _ => false
  | .playAudio _ => false
  | .receiveAudio _ => false
  | _ => true

/-- Reply decode step of `get_pin` and `get_status`:
`String::from_utf8(buf.to_vec()).map_err(|_| InvalidResponse)`. -/
def textDecode (buf : List Nat) : Except Csr8645Error (List Nat) :=
  match utf8Decode buf with
  | none => .error .invalidResponse
  | some s => .ok s

/-- Reply decode step of `get_baudrate`:
`u32::from_str_radix(core::str::from_utf8(&buf).unwrap().trim(), 10)
 .map_err(|_| InvalidResponse)`.
`none` models the panic of `.unwrap()` on invalid UTF-8. -/
def baudrateDecode (buf : List Nat) : Option (Except Csr8645Error Nat) :=
  match utf8Decode buf with
  | none => none
  | some s =>
    match parseU32 (rustTrim s) with
    | none => some (.error .invalidResponse)
    | some n => some (.ok n)

/-- Reply decode step of `check_connection_status`:
`String::from_utf8` then `response.contains("OK+CON")`. -/
def checkConnDecode (buf : List Nat) : Except Csr8645Error Bool :=
  match utf8Decode buf with
  | none => .error .invalidResponse
  | some s => .ok (containsSub s (strCp "OK+CON"))

/-- Reply decode step of `scan`: `String::from_utf8` then
`response.split('\n').map(|s| s.to_string()).collect()`. -/
def scanDecode (buf : List Nat) : Except Csr8645Error (List (List Nat)) :=
  match utf8Decode buf with
  | none => .error .invalidResponse
  | some s => .ok (splitChar 0x0A s)

/-- A write-only method body (`send_command` and return): one write,
no read. -/
def writeOnly (st : Csr8645State) (frame : List Nat) (o : Oracle) :
    Outcome × List Event × Csr8645State :=
  match o.writeRes with
  | .error e => (.err (.uartError e), [.write frame], st)
  | .ok _ => (.ok .unit, [.write frame], st)

/-- A write-then-read method body: `send_command(frame)?`, then
`read_response(&mut buf)?` into an `n`-byte zero-initialised buffer,
then the decode continuation `k` on the buffer contents.  The `?`
operator returns the transport fault before the read is attempted. -/
def writeRead (st : Csr8645State) (frame : List Nat) (n : Nat) (o : Oracle)
    (k : List Nat → Outcome) : Outcome × List Event × Csr8645State :=
  match o.writeRes with
  | .error e => (.err (.uartError e), [.write frame], st)
  | .ok _ =>
    match o.readRes with
    | .error e => (.err (.uartError e), [.write frame, .read n], st)
    | .ok data => (k (fillBuf n data), [.write frame, .read n], st)

/-- A read-only method body (`receive_data` / `receive_audio`):
one `uart.read` into the caller's `n`-byte buffer, no write. -/
def readOnly (st : Csr8645State) (n : Nat) (o : Oracle) :
    Outcome × List Event × Csr8645State :=
  match o.readRes with
  | .error e => (.err (.uartError e), [.read n], st)
  | .ok data => (.ok (.bytes (data.take n)), [.read n], st)

/-- One public method call of `Csr8645`, as a pure function of the
driver state, the command and the transport oracle: returns the
outcome, the list of transport interactions in order, and the driver
state after the call.  Each arm transcribes the body of the
corresponding method. -/
def runOp (st : Csr8645State) (c : Command) (o : Oracle) :
    Outcome × List Event × Csr8645State :=
  match c with
  | .setName name => writeOnly st (setNameFrame name) o
  | .getName => writeRead st (strCp "AT+NAME?\r\n") 64 o (fun _ => .ok .unit)
  | .setPin pin => writeOnly st (setPinFrame pin) o
  | .getPin => writeRead st (strCp "AT+PIN?\r\n") 64 o (fun buf =>
      match textDecode buf with
      | .error e => .err e
      | .ok s => .ok (.text s))
  | .setBaudrate rate => writeOnly st (setBaudrateFrame rate) o
  | .getBaudrate => writeRead st (strCp "AT+BAUD?\r\n") 64 o (fun buf =>
      match baudrateDecode buf with
      | none => .panicked
      | some (.error e) => .err e
      | some (.ok n) => .ok (.u32 n))
  | .connect address => writeOnly st (connectFrame address) o
  | .disconnect => writeOnly st (strCp "AT") o
  | .checkConnectionStatus => writeRead st (strCp "AT+CON?\r\n") 64 o (fun buf =>
      match checkConnDecode buf with
      | .error e => .err e
      | .ok b => .ok (.bool b))
  | .scan => writeRead st (strCp "AT+DISC?\r\n") 512 o (fun buf =>
      match scanDecode buf with
      | .error e => .err e
      | .ok xs => .ok (.addressList xs))
  | .sendData data => writeOnly st data o
  | .receiveData len => readOnly st len o
  | .playAudio data => writeOnly st data o
  | .receiveAudio len => readOnly st len o
  | .getStatus => writeRead st (strCp "AT+STATE?\r\n") 64 o (fun buf =>
      match textDecode buf with
      | .error e => .err e
      | .ok s => .ok (.text s))
  | .setNotifications enable =>
      writeOnly st (if enable then strCp "AT+NOTI1\r\n" else strCp "AT+NOTI0\r\n") o

/-- Number of write events in a trace. -/
def countWrites (t : List Event) : Nat :=
  t.countP fun e => match e with | .write _ => true | .read _ => false

/-- Number of read events in a trace. -/
def countReads (t : List Event) : Nat :=
  t.countP fun e => match e with | .write _ => false | .read _ => true

/-- The two receive-only passthrough operations. -/
def isReceiveOnly : Command → Bool
  | .receiveData _ => true
  | .receiveAudio _ => true
  | _ => false

/-- A fixed driver state for concrete evaluations. -/
def st0 : Csr8645State := ⟨0⟩

/-- An oracle whose write and read both succeed, the read delivering
`data`. -/
def okOracle (data : List Nat) : Oracle := ⟨.ok (), .ok data⟩

/-- An oracle whose write fails with fault code 7. -/
def writeFailOracle : Oracle := ⟨.error 7, .ok []⟩

example : (runOp st0 .getStatus (okOracle (strCp "OK+STATE"))).1 =
    .ok (.text (strCp "OK+STATE" ++ List.replicate 56 0)) := by decide
example : (runOp st0 .getBaudrate (okOracle [0xFF])).1 = .panicked := by decide
example : (runOp st0 (.receiveData 4) (okOracle [1, 2, 3])).2.1 = [.read 4] := by decide
example : (runOp st0 .disconnect (okOracle [])).2.1 = [.write [65, 84]] := by decide

theorem containsSub_iff (hay pat : List Nat) :
    containsSub hay pat = true ↔ pat <:+: hay := by
  induction hay with
  | nil =>
    rw [containsSub]
    by_cases h : pat.isPrefixOf ([] : List Nat)
    · simp only [h, if_true, true_iff, List.infix_nil]
      exact List.prefix_nil.mp (List.isPrefixOf_iff_prefix.mp h)
    · have h' : ¬ pat = [] := fun e =>
        h (List.isPrefixOf_iff_prefix.mpr (e ▸ List.prefix_nil.mpr rfl))
      simp only [h, if_false, List.infix_nil]
      exact iff_of_false (by simp) h'
  | cons a t ih =>
    rw [containsSub]
    by_cases h : pat.isPrefixOf (a :: t)
    · simp only [h, if_true, true_iff]
      exact (List.isPrefixOf_iff_prefix.mp h).isInfix
    · have h' : ¬ pat <+: a :: t := fun hp => h (List.isPrefixOf_iff_prefix.mpr hp)
      simp only [h, if_false, ih, List.infix_cons_iff]
      tauto

theorem splitChar_of_not_mem {sep : Nat} {l : List Nat} (h : sep ∉ l) :
    splitChar sep l = [l] := by
  induction l with
  | nil => rfl
  | cons c rest ih =>
    have hc : ¬ c = sep := fun e => h (e ▸ List.mem_cons_self c rest)
    have hrest : sep ∉ rest := fun m => h (List.mem_cons_of_mem _ m)
    simp [splitChar, hc, ih hrest]

theorem utf8Step_spec {b : Nat} {rest : List Nat} {cp : Nat} {rest2 : List Nat}
    (h : utf8Step b rest = some (cp, rest2)) :
    rest2.length + cpLen cp = rest.length + 1 ∧ rest2.length ≤ rest.length := by
  unfold utf8Step at h
  repeat' (first | (split at h) | (split_ifs at h))
  all_goals (try exact Option.noConfusion h)
  all_goals simp only [Option.some.injEq, Prod.mk.injEq] at h
  all_goals obtain ⟨rfl, rfl⟩ := h
  all_goals simp only [List.length_cons, cpLen]
  all_goals (split_ifs <;> omega)

theorem utf8Step_append {b : Nat} {rest : List Nat} {cp : Nat} {rest2 : List Nat}
    (l2 : List Nat) (h : utf8Step b rest = some (cp, rest2)) :
    utf8Step b (rest ++ l2) = some (cp, rest2 ++ l2) := by
  unfold utf8Step at h ⊢
  repeat' (first | (split at h) | (split_ifs at h))
  all_goals (try exact Option.noConfusion h)
  all_goals simp only [Option.some.injEq, Prod.mk.injEq] at h
  all_goals obtain ⟨rfl, rfl⟩ := h
  all_goals simp_all [List.cons_append]
  all_goals (repeat rw [if_neg (by omega)])

theorem utf8DecodeGo_nil : ∀ f, utf8DecodeGo f [] = some [] := by
  intro f
  cases f <;> rfl

theorem utf8DecodeGo_congr : ∀ f1 f2 l, l.length ≤ f1 → l.length ≤ f2 →
    utf8DecodeGo f1 l = utf8DecodeGo f2 l := by
  intro f1
  induction f1 with
  | zero =>
    intro f2 l h1 _
    have : l = [] := List.length_eq_zero.mp (Nat.le_zero.mp h1)
    subst this
    rw [utf8DecodeGo_nil, utf8DecodeGo_nil]
  | succ f ih =>
    intro f2 l h1 h2
    match l, f2 with
    | [], _ => rw [utf8DecodeGo_nil, utf8DecodeGo_nil]
    | b :: rest, 0 => simp at h2
    | b :: rest, g + 1 =>
      rw [utf8DecodeGo, utf8DecodeGo]
      cases hstep : utf8Step b rest with
      | none => rfl
      | some p =>
        obtain ⟨cp, rest2⟩ := p
        have hspec := utf8Step_spec hstep
        simp only [List.length_cons] at h1 h2
        dsimp only
        rw [ih g rest2 (by omega) (by omega)]

theorem utf8DecodeGo_len : ∀ fuel l s, l.length ≤ fuel →
    utf8DecodeGo fuel l = some s → utf8Len s = l.length := by
  intro fuel
  induction fuel with
  | zero =>
    intro l s h1 h2
    have : l = [] := List.length_eq_zero.mp (Nat.le_zero.mp h1)
    subst this
    rw [utf8DecodeGo_nil] at h2
    cases h2
    rfl
  | succ f ih =>
    intro l s h1 h2
    match l with
    | [] =>
      rw [utf8DecodeGo_nil] at h2
      cases h2
      rfl
    | b :: rest =>
      rw [utf8DecodeGo] at h2
      cases hstep : utf8Step b rest with
      | none => rw [hstep] at h2; cases h2
      | some p =>
        obtain ⟨cp, rest2⟩ := p
        rw [hstep] at h2
        dsimp only at h2
        obtain ⟨s2, hs2, rfl⟩ := Option.map_eq_some'.mp h2
        have hspec := utf8Step_spec hstep
        simp only [List.length_cons] at h1 ⊢
        have := ih rest2 s2 (by omega) hs2
        simp only [utf8Len, List.map_cons, List.sum_cons] at this ⊢
        omega

theorem utf8Len_decode {l s : List Nat} (h : utf8Decode l = some s) :
    utf8Len s = l.length :=
  utf8DecodeGo_len l.length l s le_rfl h

theorem utf8Decode_append : ∀ fuel l1 s1 {l2 s2 : List Nat}, l1.length ≤ fuel →
    utf8DecodeGo fuel l1 = some s1 → utf8Decode l2 = some s2 →
    utf8Decode (l1 ++ l2) = some (s1 ++ s2) := by
  intro fuel
  induction fuel with
  | zero =>
    intro l1 s1 l2 s2 h1 h2 h3
    have : l1 = [] := List.length_eq_zero.mp (Nat.le_zero.mp h1)
    subst this
    rw [utf8DecodeGo_nil] at h2
    cases h2
    simpa using h3
  | succ f ih =>
    intro l1 s1 l2 s2 h1 h2 h3
    match l1 with
    | [] =>
      rw [utf8DecodeGo_nil] at h2
      cases h2
      simpa using h3
    | b :: rest =>
      rw [utf8DecodeGo] at h2
      cases hstep : utf8Step b rest with
      | none => rw [hstep] at h2; cases h2
      | some p =>
        obtain ⟨cp, rest2⟩ := p
        rw [hstep] at h2
        dsimp only at h2
        obtain ⟨s1t, hs1t, rfl⟩ := Option.map_eq_some'.mp h2
        have hspec := utf8Step_spec hstep
        simp only [List.length_cons] at h1
        have hrec : utf8Decode (rest2 ++ l2) = some (s1t ++ s2) :=
          ih rest2 s1t (by omega) hs1t h3
        rw [List.cons_append, utf8Decode, List.length_cons, utf8DecodeGo,
          utf8Step_append l2 hstep]
        dsimp only
        rw [utf8DecodeGo_congr ((rest ++ l2).length) ((rest2 ++ l2).length) (rest2 ++ l2)
          (by simp; omega) le_rfl]
        rw [show utf8DecodeGo (rest2 ++ l2).length (rest2 ++ l2) = utf8Decode (rest2 ++ l2) from rfl]
        rw [hrec]
        rfl

theorem utf8Decode_ascii : ∀ l : List Nat, (∀ b ∈ l, b < 0x80) → utf8Decode l = some l := by
  intro l h
  induction l with
  | nil => rfl
  | cons b rest ih =>
    have hb : b < 0x80 := h b (List.mem_cons_self b rest)
    have hr := ih fun x hx => h x (List.mem_cons_of_mem _ hx)
    have hstep : utf8Step b rest = some (b, rest) := by
      unfold utf8Step
      rw [if_pos hb]
    rw [utf8Decode, List.length_cons, utf8DecodeGo, hstep]
    dsimp only
    rw [show utf8DecodeGo rest.length rest = utf8Decode rest from rfl, hr]
    rfl

theorem utf8Decode_replicate_zero (n : Nat) :
    utf8Decode (List.replicate n 0) = some (List.replicate n 0) :=
  utf8Decode_ascii _ fun b hb => by
    rw [List.eq_of_mem_replicate hb]; norm_num


/-- C1: the claim says that a `GetBaudrate` reply whose bytes are not
valid UTF-8 yields the `InvalidResponse` error and never a panic.  The
code instead calls `.unwrap()` on `core::str::from_utf8`, which panics
on invalid UTF-8: evaluating `get_baudrate` with a reply whose first
byte is `0xFF` produces the panic outcome, not an error return. -/
theorem c1_getBaudrate_invalid_utf8_panics :
    (runOp st0 Command.getBaudrate (okOracle [0xFF])).1 = Outcome.panicked ∧
    (runOp st0 Command.getBaudrate (okOracle [0xFF])).1 ≠
      Outcome.err Csr8645Error.invalidResponse := by
  decide

/-- C2 counterexample: a fully successful `GetName` call (write and
read both succeed, reply `"MyModule"` is valid UTF-8) returns
`Response.unit`, not a `Response.text` carrying the decoded reply —
the reply buffer is only logged, never returned. -/
theorem c2_getName_counterexample :
    (runOp st0 Command.getName (okOracle (strCp "MyModule"))).1 =
      Outcome.ok Response.unit ∧
    (runOp st0 Command.getName (okOracle (strCp "MyModule"))).1 ≠
      Outcome.ok (Response.text (strCp "MyModule" ++ List.replicate 56 0)) := by
  decide

/-- C2 (amended): every `GetName` call whose write and read both
succeed returns `Response.unit`; the received bytes are not returned
to the caller (and no UTF-8 validation is performed on them). -/
theorem c2_getName_returns_unit (st : Csr8645State) (o : Oracle) (bs : List Nat)
    (hw : o.writeRes = Except.ok ()) (hr : o.readRes = Except.ok bs) :
    (runOp st Command.getName o).1 = Outcome.ok Response.unit := by
  obtain ⟨w, r⟩ := o
  cases hw
  cases hr
  rfl

/-- C2 witness: the amended theorem at a concrete successful call. -/
theorem c2_getName_returns_unit_witness :
    (runOp st0 Command.getName (okOracle (strCp "BT"))).1 =
      Outcome.ok Response.unit :=
  c2_getName_returns_unit st0 (okOracle (strCp "BT")) (strCp "BT") rfl rfl

/-- C7: for every name string `s`, `set_name(s)` builds exactly the
frame `AT+NAME=` ++ `s` ++ `\r\n` and nothing else. -/
theorem c7_setName_frame (s : List Nat) :
    frameOf (Command.setName s) =
      some ([0x41, 0x54, 0x2B, 0x4E, 0x41, 0x4D, 0x45, 0x3D] ++ s ++ [0x0D, 0x0A]) :=
  rfl

/-- C8: decoding a valid-UTF-8 `Scan` reply splits the decoded string
on the line-feed character: a reply without any line feed yields the
single-element list holding the whole decoded string, and the reply
`"AA:BB\nCC:DD\n"` yields `["AA:BB", "CC:DD", ""]` with a trailing
empty element from the final separator. -/
theorem c8_scan_decode :
    (∀ buf s, utf8Decode buf = some s → ¬ (0x0A ∈ s) →
      scanDecode buf = Except.ok [s]) ∧
    scanDecode (strCp "AA:BB\nCC:DD\n") =
      Except.ok [strCp "AA:BB", strCp "CC:DD", []] := by
  constructor
  · intro buf s hs hn
    unfold scanDecode
    rw [hs]
    dsimp only
    rw [splitChar_of_not_mem hn]
  · decide

/-- C8 witness: the no-line-feed case of C8 at a concrete reply. -/
theorem c8_scan_decode_witness :
    scanDecode (strCp "AB:CD") = Except.ok [strCp "AB:CD"] :=
  c8_scan_decode.1 (strCp "AB:CD") (strCp "AB:CD") (by decide) (by decide)

/-- C4 counterexample: the claim says a `CheckConnectionStatus` reply
that is not valid UTF-8 yields `Bool false` and never an error; the
code instead returns `InvalidResponse` on such a reply (byte `0xFF`
followed by the zero padding of the 64-byte buffer). -/
theorem c4_checkConnectionStatus_counterexample :
    checkConnDecode (0xFF :: List.replicate 63 0) =
      Except.error Csr8645Error.invalidResponse ∧
    checkConnDecode (0xFF :: List.replicate 63 0) ≠ Except.ok false := by
  decide

/-- C4 (amended): on a valid-UTF-8 reply, `CheckConnectionStatus`
decodes to `true` exactly when the decoded text contains `OK+CON` as a
substring and to `false` otherwise (empty included, never an error);
on a reply that is not valid UTF-8 it returns `InvalidResponse`. -/
theorem c4_checkConnectionStatus_decode (buf : List Nat) :
    (∀ s, utf8Decode buf = some s →
      ((checkConnDecode buf = Except.ok true ↔ strCp "OK+CON" <:+: s) ∧
       (checkConnDecode buf = Except.ok false ↔ ¬ strCp "OK+CON" <:+: s))) ∧
    (utf8Decode buf = none →
      checkConnDecode buf = Except.error Csr8645Error.invalidResponse) := by
  constructor
  · intro s hs
    unfold checkConnDecode
    rw [hs]
    dsimp only
    rw [← containsSub_iff s (strCp "OK+CON")]
    constructor
    · constructor
      · intro h
        exact Except.ok.inj h
      · intro h
        rw [h]
    · constructor
      · intro h hc
        rw [Except.ok.inj h] at hc
        exact Bool.false_ne_true hc
      · intro h
        rw [Bool.eq_false_iff.mpr h]
  · intro hn
    unfold checkConnDecode
    rw [hn]

/-- C4 witness: the amended theorem at a concrete valid-UTF-8 reply
containing `OK+CON`. -/
theorem c4_checkConnectionStatus_decode_witness :
    checkConnDecode (strCp "xxOK+CONyy") = Except.ok true :=
  ((c4_checkConnectionStatus_decode (strCp "xxOK+CONyy")).1
    (strCp "xxOK+CONyy") (by decide)).1.mpr (by decide)

/-- C5 counterexample: `Disconnect` is a text command, yet its frame is
the bare two bytes `AT` with no `\r\n` terminator, refuting the claim
that every text-command frame ends in `\r\n`. -/
theorem c5_disconnect_counterexample :
    textCommand Command.disconnect = true ∧
    frameOf Command.disconnect = some [0x41, 0x54] ∧
    ¬ ([0x0D, 0x0A] <:+ [0x41, 0x54]) := by
  decide

/-- C5 (amended): every text command's frame begins with the bytes
`AT`, and every text command except `Disconnect` has a frame
terminated by `\r\n`; `Disconnect` sends the bare `AT` probe with no
terminator. -/
theorem c5_text_frames (c : Command) (f : List Nat)
    (htext : textCommand c = true) (hf : frameOf c = some f) :
    strCp "AT" <+: f ∧ (c ≠ Command.disconnect → strCp "\r\n" <:+ f) := by
  cases c with
  | setName name =>
    injection hf with hf
    subst hf
    exact ⟨⟨strCp "+NAME=" ++ (name ++ strCp "\r\n"), rfl⟩,
      fun _ => ⟨strCp "AT+NAME=" ++ name, rfl⟩⟩
  | getName =>
    injection hf with hf
    subst hf
    exact ⟨by decide, fun _ => by decide⟩
  | setPin pin =>
    injection hf with hf
    subst hf
    exact ⟨⟨strCp "+PIN=" ++ (pin ++ strCp "\r\n"), rfl⟩,
      fun _ => ⟨strCp "AT+PIN=" ++ pin, rfl⟩⟩
  | getPin =>
    injection hf with hf
    subst hf
    exact ⟨by decide, fun _ => by decide⟩
  | setBaudrate rate =>
    injection hf with hf
    subst hf
    exact ⟨⟨strCp "+BAUD=" ++ (natDigits rate ++ strCp "\r\n"), rfl⟩,
      fun _ => ⟨strCp "AT+BAUD=" ++ natDigits rate, rfl⟩⟩
  | getBaudrate =>
    injection hf with hf
    subst hf
    exact ⟨by decide, fun _ => by decide⟩
  | connect address =>
    injection hf with hf
    subst hf
    exact ⟨⟨strCp "+CON" ++ (address ++ strCp "\r\n"), rfl⟩,
      fun _ => ⟨strCp "AT+CON" ++ address, rfl⟩⟩
  | disconnect =>
    injection hf with hf
    subst hf
    exact ⟨by decide, fun h => absurd rfl h⟩
  | checkConnectionStatus =>
    injection hf with hf
    subst hf
    exact ⟨by decide, fun _ => by decide⟩
  | scan =>
    injection hf with hf
    subst hf
    exact ⟨by decide, fun _ => by decide⟩
  | sendData data => simp [textCommand] at htext
  | receiveData len => simp [textCommand] at htext
  | playAudio data => simp [textCommand] at htext
  | receiveAudio len => simp [textCommand] at htext
  | getStatus =>
    injection hf with hf
    subst hf
    exact ⟨by decide, fun _ => by decide⟩
  | setNotifications enable =>
    cases enable <;>
      (injection hf with hf
       subst hf
       exact ⟨by decide, fun _ => by decide⟩)

/-- C5 witness: the amended theorem at the concrete `GetName` query
frame. -/
theorem c5_text_frames_witness :
    strCp "AT" <+: strCp "AT+NAME?\r\n" ∧
    (Command.getName ≠ Command.disconnect → strCp "\r\n" <:+ strCp "AT+NAME?\r\n") :=
  c5_text_frames Command.getName (strCp "AT+NAME?\r\n") rfl rfl

/-- C6: `Connect(a)` writes exactly the frame `AT+CON` ++ `a` ++
`\r\n`, performs no read at all, and a transport fault on the write is
returned to the caller as `uartError`. -/
theorem c6_connect_writes_frame (st : Csr8645State) (a : List Nat) (o : Oracle) :
    frameOf (Command.connect a) = some (strCp "AT+CON" ++ a ++ strCp "\r\n") ∧
    (runOp st (Command.connect a) o).2.1 =
      [Event.write (strCp "AT+CON" ++ a ++ strCp "\r\n")] ∧
    countReads (runOp st (Command.connect a) o).2.1 = 0 ∧
    (∀ e, o.writeRes = Except.error e →
      (runOp st (Command.connect a) o).1 = Outcome.err (Csr8645Error.uartError e)) := by
  obtain ⟨w, r⟩ := o
  refine ⟨rfl, ?_, ?_, ?_⟩
  · cases w <;> rfl
  · cases w <;> rfl
  · intro e he
    cases he
    rfl

/-- C6 witness: the spec's end-to-end scenario — connecting to
`00:11:22:33:44:55` with a failing write emits exactly that frame,
reads nothing, and surfaces the fault. -/
theorem c6_connect_writes_frame_witness :
    frameOf (Command.connect (strCp "00:11:22:33:44:55")) =
      some (strCp "AT+CON" ++ strCp "00:11:22:33:44:55" ++ strCp "\r\n") ∧
    (runOp st0 (Command.connect (strCp "00:11:22:33:44:55")) writeFailOracle).2.1 =
      [Event.write (strCp "AT+CON" ++ strCp "00:11:22:33:44:55" ++ strCp "\r\n")] ∧
    countReads (runOp st0 (Command.connect (strCp "00:11:22:33:44:55")) writeFailOracle).2.1 = 0 ∧
    (runOp st0 (Command.connect (strCp "00:11:22:33:44:55")) writeFailOracle).1 =
      Outcome.err (Csr8645Error.uartError 7) := by
  have h := c6_connect_writes_frame st0 (strCp "00:11:22:33:44:55") writeFailOracle
  exact ⟨h.1, h.2.1, h.2.2.1, h.2.2.2 7 rfl⟩

/-- C3 counterexample: `receive_data` performs zero writes (its trace
is a single read), refuting the claim that every operation performs
exactly one write. -/
theorem c3_receiveData_counterexample :
    (runOp st0 (Command.receiveData 4) (okOracle [1, 2, 3])).2.1 = [Event.read 4] ∧
    countWrites (runOp st0 (Command.receiveData 4) (okOracle [1, 2, 3])).2.1 = 0 := by
  decide

/-- C3 (amended): every operation performs at most one write and at
most one read; `ReceiveData` and `ReceiveAudio` perform zero writes
and exactly one read, and every other operation performs exactly one
write, which comes first, followed by at most one read. -/
theorem c3_trace_shape (st : Csr8645State) (c : Command) (o : Oracle) :
    countWrites (runOp st c o).2.1 ≤ 1 ∧
    countReads (runOp st c o).2.1 ≤ 1 ∧
    (if isReceiveOnly c then
      countWrites (runOp st c o).2.1 = 0 ∧ countReads (runOp st c o).2.1 = 1
    else
      ∃ f t, (runOp st c o).2.1 = Event.write f :: t ∧ countWrites t = 0) := by
  obtain ⟨w, r⟩ := o
  cases c <;> cases w <;> cases r <;>
    simp [runOp, writeOnly, writeRead, readOnly, countWrites, countReads,
      isReceiveOnly, List.countP_cons, List.countP_nil]
  all_goals exact ⟨_, _, ⟨rfl, rfl⟩, by simp⟩

/-- C3 witness: the amended trace shape at a concrete operation. -/
theorem c3_trace_shape_witness :
    countWrites (runOp st0 Command.getName (okOracle [])).2.1 ≤ 1 ∧
    countReads (runOp st0 Command.getName (okOracle [])).2.1 ≤ 1 ∧
    (if isReceiveOnly Command.getName then
      countWrites (runOp st0 Command.getName (okOracle [])).2.1 = 0 ∧
      countReads (runOp st0 Command.getName (okOracle [])).2.1 = 1
    else
      ∃ f t, (runOp st0 Command.getName (okOracle [])).2.1 = Event.write f :: t ∧
        countWrites t = 0) :=
  c3_trace_shape st0 Command.getName (okOracle [])

/-- C9: `get_status` leaves the driver state unchanged, so a second
call with the same transport behaviour returns the identical result;
and on success the result is the `text` decoding of the reply buffer —
the operation is deterministic in the transport's reply with no hidden
driver-side mutation. -/
theorem c9_getStatus_deterministic (st : Csr8645State) (o : Oracle) :
    (runOp st Command.getStatus o).2.2 = st ∧
    runOp ((runOp st Command.getStatus o).2.2) Command.getStatus o =
      runOp st Command.getStatus o ∧
    (∀ data s, o.writeRes = Except.ok () → o.readRes = Except.ok data →
      utf8Decode (fillBuf 64 data) = some s →
      (runOp st Command.getStatus o).1 = Outcome.ok (Response.text s)) := by
  obtain ⟨w, r⟩ := o
  have hstate : (runOp st Command.getStatus ⟨w, r⟩).2.2 = st := by
    cases w <;> cases r <;> rfl
  refine ⟨hstate, by rw [hstate], ?_⟩
  intro data s hw hr hs
  cases hw
  cases hr
  simp only [runOp, writeRead, textDecode, hs]

/-- C9 witness: two identical successful `GetStatus` exchanges at a
concrete reply produce the same `text` response. -/
theorem c9_getStatus_deterministic_witness :
    (runOp st0 Command.getStatus (okOracle (strCp "OK"))).1 =
      Outcome.ok (Response.text (strCp "OK" ++ List.replicate 62 0)) :=
  (c9_getStatus_deterministic st0 (okOracle (strCp "OK"))).2.2
    (strCp "OK") (strCp "OK" ++ List.replicate 62 0) rfl rfl (by decide)

/-- C10: on every successful `GetPin` or `GetStatus` exchange the
decode input is the entire 64-byte zero-initialised buffer — the reply
bytes followed by zero padding — so the returned string's UTF-8 byte
length is exactly 64, and when the reply itself is valid UTF-8 the
returned string is its decoding followed by the padding NULs. -/
theorem c10_getPin_getStatus_full_buffer (st : Csr8645State) (o : Oracle)
    (data : List Nat) (hw : o.writeRes = Except.ok ())
    (hr : o.readRes = Except.ok data) (hlen : data.length ≤ 64) :
    fillBuf 64 data = data ++ List.replicate (64 - data.length) 0 ∧
    (fillBuf 64 data).length = 64 ∧
    (∀ s, utf8Decode (fillBuf 64 data) = some s →
      (runOp st Command.getPin o).1 = Outcome.ok (Response.text s) ∧
      (runOp st Command.getStatus o).1 = Outcome.ok (Response.text s) ∧
      utf8Len s = 64 ∧
      (∀ t, utf8Decode data = some t →
        s = t ++ List.replicate (64 - data.length) 0)) := by
  obtain ⟨w, r⟩ := o
  cases hw
  cases hr
  have hfill : fillBuf 64 data = data ++ List.replicate (64 - data.length) 0 := by
    unfold fillBuf
    rw [List.take_of_length_le hlen]
  have hlen64 : (fillBuf 64 data).length = 64 := by
    rw [hfill]
    simp only [List.length_append, List.length_replicate]
    omega
  refine ⟨hfill, hlen64, ?_⟩
  intro s hs
  refine ⟨?_, ?_, ?_, ?_⟩
  · simp only [runOp, writeRead, textDecode, hs]
  · simp only [runOp, writeRead, textDecode, hs]
  · rw [utf8Len_decode hs, hlen64]
  · intro t ht
    have hz := utf8Decode_replicate_zero (64 - data.length)
    have happ := utf8Decode_append data.length data t le_rfl ht hz
    rw [← hfill] at happ
    rw [hs] at happ
    exact Option.some.inj happ

/-- C10 witness: a concrete successful `GetPin` exchange with a 4-byte
reply returns the 64-byte decode of the padded buffer. -/
theorem c10_getPin_getStatus_full_buffer_witness :
    (runOp st0 Command.getPin (okOracle (strCp "1234"))).1 =
      Outcome.ok (Response.text (strCp "1234" ++ List.replicate 60 0)) ∧
    utf8Len (strCp "1234" ++ List.replicate 60 0) = 64 := by
  have h := c10_getPin_getStatus_full_buffer st0 (okOracle (strCp "1234"))
    (strCp "1234") rfl rfl (by decide)
  have h2 := h.2.2 (strCp "1234" ++ List.replicate 60 0) (by decide)
  exact ⟨h2.1, h2.2.2.1⟩
